import Mathlib

/-!
Verification of the video ingestion and frame-sampling pipeline.

The embedding below models the pipeline functions found in the repository
source (`src/unnamed/part_002`), which contains several concatenated variants
of the same pipeline.  The main consolidated variant spans lines 475-751
(`downloadDirect` at 513-547, `resolveTikTokUrl` at 555-584,
`downloadWithYtDlp` at 589-605, `extractFrames` at 611-749).  Older variants
referenced by the claims: lines 312-474 (frame file names without an
invocation identifier), and lines 752-1132 (`downloadDirect` at 921-937
without size validation, `resolveTikTokUrl` at 944-972 preferring the HD
variant).
-/

namespace VideoPipeline

/-! ## Sampler (part_002 lines 659-668)

JavaScript source:
```
timestamps = [
    0,
    Math.min(2, duration * 0.1),
    duration * 0.25,
    duration * 0.5,
    duration * 0.9
].map(t => Math.floor(t));
timestamps = [...new Set(timestamps)].filter(t => t < duration).slice(0, 5);
```
`[...new Set(xs)]` keeps the first occurrence of each element, in order.
Durations are modelled as exact rationals.
-/

/-- Deduplication with JavaScript `Set` semantics: the first occurrence of
each element is kept, in encounter order. -/
def jsSetDedup : List Int → List Int
  | [] => []
  | x :: xs => x :: jsSetDedup (xs.filter (fun y => y ≠ x))
termination_by l => l.length
decreasing_by
  simp only [List.length_cons]
  exact Nat.lt_succ_of_le (List.length_filter_le _ _)

/-- The default sampling algorithm of the consolidated `extractFrames`
(part_002 lines 660-667), run when no manual override is supplied. -/
def sampleTimestamps (duration : ℚ) : List Int :=
  let raw : List ℚ :=
    [0, min 2 (duration * (1/10)), duration * (1/4), duration * (1/2),
      duration * (9/10)]
  let floored : List Int := raw.map (fun t => ⌊t⌋)
  ((jsSetDedup floored).filter (fun t : Int => ((t : ℚ) < duration : Bool))).take 5

/-- Timestamp selection of the consolidated `extractFrames`
(part_002 lines 658-668): a manual override is used as is, and the whole
default block, including its dedup, its strictly-below-duration filter and
its truncation to 5, runs only when no override was supplied. -/
def selectTimestamps (manual : Option (List Int)) (duration : ℚ) : List Int :=
  match manual with
  | some ts => ts
  | none => sampleTimestamps duration

/-! ## Media Fetcher (part_002 lines 513-547 and 921-937) -/

/-- Observable behaviour of one streamed HTTP download: the response status,
whether the stream piped to disk without error, and the byte size of the file
on disk once the stream finished. -/
structure HttpDownload where
  status : Nat
  streamOk : Bool
  fileSize : Nat
deriving DecidableEq

/-- Result of a download attempt; every constructor except `success`
corresponds to a thrown error. -/
inductive DownloadOutcome
  | success
  | httpError (status : Nat)
  | streamError
  | tooSmall (size : Nat)
deriving DecidableEq

/-- Consolidated `downloadDirect` (part_002 lines 513-547): reject a non-200
status, propagate stream errors, and after the stream completes throw when the
file on disk is smaller than 1000 bytes. -/
def downloadDirect (r : HttpDownload) : DownloadOutcome :=
  if r.status ≠ 200 then .httpError r.status
  else if !r.streamOk then .streamError
  else if r.fileSize < 1000 then .tooSmall r.fileSize
  else .success

/-- Older `downloadDirect` (part_002 lines 921-937): the HTTP client rejects
statuses outside the 2xx range and stream errors propagate, but there is no
validation of the downloaded file size at all. -/
def downloadDirectLegacy (r : HttpDownload) : DownloadOutcome :=
  if r.status < 200 ∨ 300 ≤ r.status then .httpError r.status
  else if !r.streamOk then .streamError
  else .success

/-! ## TikTok URL Resolver (part_002 lines 555-584 and 944-972) -/

/-- Candidate URL fields of a tikwm API response body; a missing field is
`none`, and JavaScript also treats an empty string as absent. -/
structure TikwmData where
  play : Option String
  hdplay : Option String
  wmplay : Option String
deriving DecidableEq

/-- A tikwm API response body: a status code field and an optional data
object holding the candidate URLs. -/
structure TikwmBody where
  code : Option Int
  data : Option TikwmData
deriving DecidableEq

/-- JavaScript truthiness of an optional string: null, undefined and the
empty string are falsy. -/
def jsTruthy : Option String → Bool
  | none => false
  | some s => !(s == "")

/-- JavaScript short-circuiting disjunction on optional strings. -/
def jsOr (a b : Option String) : Option String := if jsTruthy a then a else b

/-- Consolidated `resolveTikTokUrl` (part_002 lines 555-584): on a success
response, pick `play`, then `hdplay`, then `wmplay`; `none` models the thrown
resolution error. -/
def resolveTikTokUrl (body : TikwmBody) : Option String :=
  if body.code = some 0 then
    match body.data with
    | some d =>
        let videoUrl := jsOr d.play (jsOr d.hdplay d.wmplay)
        if jsTruthy videoUrl then videoUrl else none
    | none => none
  else none

/-- Older `resolveTikTokUrl` (part_002 lines 944-972): same shape but picks
`hdplay` first, then `play`, then `wmplay`. -/
def resolveTikTokUrlLegacy (body : TikwmBody) : Option String :=
  if body.code = some 0 then
    match body.data with
    | some d =>
        let videoUrl := jsOr d.hdplay (jsOr d.play d.wmplay)
        if jsTruthy videoUrl then videoUrl else none
    | none => none
  else none

/-! ## TikTok fetch fallback chain (part_002 lines 589-605 and 624-637) -/

/-- Environment of the TikTok download step: whether the tikwm resolution and
the subsequent direct download succeed, whether a yt-dlp binary is present,
and whether running it succeeds. -/
structure TikTokFetchEnv where
  tikwmResolves : Bool
  directDownloadOk : Bool
  ytdlpAvailable : Bool
  ytdlpRunOk : Bool
deriving DecidableEq

/-- A download strategy of the TikTok branch. -/
inductive FetchStrategy
  | tikwmApi
  | ytdlp
deriving DecidableEq

/-- Result of the TikTok download step; every constructor except `ok`
corresponds to a thrown error. -/
inductive FetchResult
  | ok
  | ytdlpUnavailable
  | ytdlpFailed
deriving DecidableEq

/-- `downloadWithYtDlp` (part_002 lines 589-605): throws the error message
about yt-dlp not being available when no binary is found, otherwise reports
the outcome of the subprocess. -/
def downloadWithYtDlp (env : TikTokFetchEnv) : FetchResult :=
  if !env.ytdlpAvailable then .ytdlpUnavailable
  else if env.ytdlpRunOk then .ok else .ytdlpFailed

/-- The TikTok branch of the consolidated `extractFrames` (part_002 lines
624-633): try the tikwm API with a direct download, and on any failure of that
block fall back to `downloadWithYtDlp`; the second component records which
strategies were attempted, in order. -/
def tiktokFetch (env : TikTokFetchEnv) : FetchResult × List FetchStrategy :=
  if env.tikwmResolves && env.directDownloadOk then (.ok, [.tikwmApi])
  else (downloadWithYtDlp env, [.tikwmApi, .ytdlp])

/-! ## Transient file naming

The consolidated `extractFrames` (part_002 lines 616-617, 674, 729) derives
every transient file name from the per-invocation `videoId`.  The older
variant at part_002 lines 380-474 also has a per-invocation id in its video
file name (line 382), but its per-timestamp frame file name (line 432) is
built from the timestamp alone. -/

/-- Video file name of the consolidated `extractFrames` (part_002 line 617). -/
def videoPathOf (videoId : Nat) : String :=
  "socially_video_" ++ toString videoId ++ ".mp4"

/-- Frame file name of the consolidated `extractFrames` (part_002 line 674). -/
def framePathOf (videoId : Nat) (timestamp : Int) : String :=
  "frame_" ++ toString videoId ++ "_" ++ toString timestamp ++ ".jpg"

/-- Audio file name of the consolidated `extractFrames` (part_002 line 729). -/
def audioPathOf (videoId : Nat) : String :=
  "audio_" ++ toString videoId ++ ".mp3"

/-- Frame file name of the older `extractFrames` (part_002 line 432): the
invocation has a videoId, but the frame file name mentions only the
timestamp. -/
def legacyFramePathOf (_videoId : Nat) (timestamp : Int) : String :=
  "frame_" ++ toString timestamp ++ "s.jpg"

/-- Numeric value of a big-endian decimal digit string. -/
def digitsVal : List Char → Nat
  | [] => 0
  | c :: cs => (c.toNat - 48) * 10 ^ cs.length + digitsVal cs

/-! ## Frame loop, audio step and cleanup (part_002 lines 670-749) -/

/-- Outcome of the ffmpeg capture for one timestamp, taken after the
accurate-seek fallback inside the per-timestamp promise: whether the promise
resolved, and whether a file exists at the frame path afterwards.  A resolved
promise may leave no file (line 708 checks), and a failed one may leave a
partial file. -/
structure FrameOutcome where
  captureOk : Bool
  fileCreated : Bool
deriving DecidableEq

/-- One extracted frame as pushed at part_002 lines 710-714. -/
structure Frame where
  timestamp : Int
  base64 : String
  mimeType : String
deriving DecidableEq

/-- Behaviour of ffmpeg and the filesystem during one invocation: capture
outcome and file contents per timestamp, whether the audio transcode promise
resolves, and whether a partial file exists at the audio path after a failed
transcode. -/
structure PipelineEnv where
  frameOutcome : Int → FrameOutcome
  frameData : Int → String
  audioOk : Bool
  audioRemnant : Bool

/-- Errors thrown between the frame loop and the end of the pipeline. -/
inductive PipelineError
  | noFrames
  | audioFailed
deriving DecidableEq

/-- The value returned at part_002 line 742. -/
structure PipelineOutput where
  frames : List Frame
  audioPath : String
deriving DecidableEq

/-- One iteration of the frame loop (part_002 lines 673-720), acting on the
accumulated frame list and the list of frame files on disk: a resolved
capture whose file exists is read, pushed, and its file deleted at once
(line 715); a resolved capture without a file does nothing; a failed capture
only logs a warning (line 718), leaving any partial file on disk. -/
def frameStep (videoId : Nat) (env : PipelineEnv)
    (acc : List Frame × List String) (t : Int) : List Frame × List String :=
  let o := env.frameOutcome t
  if o.captureOk then
    if o.fileCreated then
      (acc.1 ++ [⟨t, env.frameData t, "image/jpeg"⟩], acc.2)
    else acc
  else
    if o.fileCreated then (acc.1, acc.2 ++ [framePathOf videoId t]) else acc

/-- Timestamps of the loop that produce a frame: the capture promise resolved
and the frame file existed (part_002 line 708). -/
def successfulTs (env : PipelineEnv) (ts : List Int) : List Int :=
  ts.filter fun t =>
    (env.frameOutcome t).captureOk && (env.frameOutcome t).fileCreated

/-- Timestamps whose failed capture leaves a partial frame file on disk. -/
def leakedTs (env : PipelineEnv) (ts : List Int) : List Int :=
  ts.filter fun t =>
    !(env.frameOutcome t).captureOk && (env.frameOutcome t).fileCreated

/-- The consolidated pipeline from the frame-extraction loop onwards
(part_002 lines 670-749), entered after a successful download with the video
file on disk.  Returns the outcome, success value or thrown error, and the
list of files left in the transient directory at exit.  The `erase` on each
exit path is the unconditional deletion of the video file at lines 740 and
746; no path deletes the audio file. -/
def runPipeline (videoId : Nat) (duration : ℚ) (manual : Option (List Int))
    (env : PipelineEnv) : Except PipelineError PipelineOutput × List String :=
  let loop := (selectTimestamps manual duration).foldl (frameStep videoId env)
    ([], [])
  let disk := videoPathOf videoId :: loop.2
  if loop.1.isEmpty then
    (.error .noFrames, disk.erase (videoPathOf videoId))
  else if env.audioOk then
    (.ok ⟨loop.1, audioPathOf videoId⟩,
      (disk ++ [audioPathOf videoId]).erase (videoPathOf videoId))
  else
    (.error .audioFailed,
      (disk ++ if env.audioRemnant then [audioPathOf videoId] else []).erase
        (videoPathOf videoId))

/-- An environment in which the captures at timestamps 1 and 3 fail without
leaving a file and every other capture succeeds; audio transcoding succeeds. -/
def mixedEnv : PipelineEnv where
  frameOutcome := fun t => if t = 1 ∨ t = 3 then ⟨false, false⟩ else ⟨true, true⟩
  frameData := fun _ => "d"
  audioOk := true
  audioRemnant := false

/-- An environment in which every capture fails without leaving a file. -/
def allFailEnv : PipelineEnv where
  frameOutcome := fun _ => ⟨false, false⟩
  frameData := fun _ => "d"
  audioOk := true
  audioRemnant := false

/-- An environment in which every capture succeeds but the audio transcode
fails, leaving a partial file at the audio path. -/
def audioFailEnv : PipelineEnv where
  frameOutcome := fun _ => ⟨true, true⟩
  frameData := fun _ => "d"
  audioOk := false
  audioRemnant := true

/-- An environment in which the capture at timestamp 3 fails leaving a
partial frame file on disk, every other capture succeeds, and audio
transcoding succeeds. -/
def leakEnv : PipelineEnv where
  frameOutcome := fun t => if t = 3 then ⟨false, true⟩ else ⟨true, true⟩
  frameData := fun _ => "imgdata"
  audioOk := true
  audioRemnant := false

/-- An environment in which every capture succeeds and so does the audio
transcode. -/
def cleanEnv : PipelineEnv where
  frameOutcome := fun _ => ⟨true, true⟩
  frameData := fun _ => "d"
  audioOk := true
  audioRemnant := false

/-! ## Theorems -/

theorem jsSetDedup_sublist : ∀ l : List Int, List.Sublist (jsSetDedup l) l := by
  intro l
  induction l using jsSetDedup.induct with
  | case1 => simp [jsSetDedup]
  | case2 x xs ih =>
    rw [jsSetDedup]
    exact (ih.trans (List.filter_sublist xs)).cons₂ x

theorem jsSetDedup_subset (l : List Int) : jsSetDedup l ⊆ l :=
  (jsSetDedup_sublist l).subset

theorem jsSetDedup_nodup : ∀ l : List Int, (jsSetDedup l).Nodup := by
  intro l
  induction l using jsSetDedup.induct with
  | case1 => simp [jsSetDedup]
  | case2 x xs ih =>
    rw [jsSetDedup]
    refine List.nodup_cons.mpr ⟨fun hmem => ?_, ih⟩
    have h1 := jsSetDedup_subset _ hmem
    have h2 := List.of_mem_filter h1
    simp at h2

theorem pairwise_le_five {a b c e f : Int} (h1 : a ≤ b) (h2 : b ≤ c)
    (h3 : c ≤ e) (h4 : e ≤ f) :
    ([a, b, c, e, f] : List Int).Pairwise (· ≤ ·) := by
  refine List.Pairwise.cons (fun x hx => ?_) (List.Pairwise.cons (fun x hx => ?_)
    (List.Pairwise.cons (fun x hx => ?_) (List.Pairwise.cons (fun x hx => ?_)
      (List.pairwise_singleton _ _))))
  · simp at hx; rcases hx with rfl | rfl | rfl | rfl <;> omega
  · simp at hx; rcases hx with rfl | rfl | rfl <;> omega
  · simp at hx; rcases hx with rfl | rfl <;> omega
  · simp at hx; subst hx; omega

/-- C1: for every duration d greater than 0, the default Sampler, which
computes candidates 0, min(2, 0.10d), 0.25d, 0.50d, 0.90d, floors each to an
integer second, deduplicates with Set semantics, discards points not strictly
below the duration and truncates to at most 5, yields a strictly ascending
(hence deduplicated) sequence of 1 to 5 integers, each strictly less than d. -/
theorem sampler_default_spec (d : ℚ) (hd : 0 < d) :
    (sampleTimestamps d).Pairwise (· < ·) ∧
    (sampleTimestamps d).Nodup ∧
    1 ≤ (sampleTimestamps d).length ∧
    (sampleTimestamps d).length ≤ 5 ∧
    ∀ t ∈ sampleTimestamps d, (t : ℚ) < d := by
  have hd0 : (0 : ℚ) ≤ d := le_of_lt hd
  have h1 : (0 : ℚ) ≤ min 2 (d * (1/10)) := le_min (by norm_num) (by positivity)
  have h2 : min 2 (d * (1/10)) ≤ d * (1/4) :=
    (min_le_right _ _).trans (by nlinarith)
  have h3 : d * (1/4) ≤ d * (1/2) := by nlinarith
  have h4 : d * (1/2) ≤ d * (9/10) := by nlinarith
  have hrep : sampleTimestamps d =
      ((jsSetDedup
          [0, ⌊min 2 (d * (1/10))⌋, ⌊d * (1/4)⌋, ⌊d * (1/2)⌋, ⌊d * (9/10)⌋]).filter
        (fun t : Int => ((t : ℚ) < d : Bool))).take 5 := by
    simp [sampleTimestamps]
  have f1 : (0 : ℤ) ≤ ⌊min 2 (d * (1/10))⌋ := Int.floor_nonneg.mpr h1
  have f2 : ⌊min 2 (d * (1/10))⌋ ≤ ⌊d * (1/4)⌋ := Int.floor_mono h2
  have f3 : ⌊d * (1/4)⌋ ≤ ⌊d * (1/2)⌋ := Int.floor_mono h3
  have f4 : ⌊d * (1/2)⌋ ≤ ⌊d * (9/10)⌋ := Int.floor_mono h4
  have hpw : ([0, ⌊min 2 (d * (1/10))⌋, ⌊d * (1/4)⌋, ⌊d * (1/2)⌋,
      ⌊d * (9/10)⌋] : List Int).Pairwise (· ≤ ·) :=
    pairwise_le_five f1 f2 f3 f4
  have hded_le := hpw.sublist (jsSetDedup_sublist _)
  have hded_lt : (jsSetDedup [0, ⌊min 2 (d * (1/10))⌋, ⌊d * (1/4)⌋,
      ⌊d * (1/2)⌋, ⌊d * (9/10)⌋]).Pairwise (· < ·) :=
    ((jsSetDedup_nodup _).and hded_le).imp fun h => lt_of_le_of_ne h.2 h.1
  have hfil := hded_lt.filter (fun t : Int => ((t : ℚ) < d : Bool))
  have htake := hfil.sublist (List.take_sublist 5 _)
  have h0mem : (0 : ℤ) ∈ jsSetDedup [0, ⌊min 2 (d * (1/10))⌋, ⌊d * (1/4)⌋,
      ⌊d * (1/2)⌋, ⌊d * (9/10)⌋] := by
    rw [jsSetDedup]; exact List.mem_cons_self _ _
  have h0fil : (0 : ℤ) ∈ (jsSetDedup [0, ⌊min 2 (d * (1/10))⌋, ⌊d * (1/4)⌋,
      ⌊d * (1/2)⌋, ⌊d * (9/10)⌋]).filter (fun t : Int => ((t : ℚ) < d : Bool)) :=
    List.mem_filter.mpr ⟨h0mem, by simpa using hd⟩
  have hlenpos : 0 < ((jsSetDedup [0, ⌊min 2 (d * (1/10))⌋, ⌊d * (1/4)⌋,
      ⌊d * (1/2)⌋, ⌊d * (9/10)⌋]).filter
        (fun t : Int => ((t : ℚ) < d : Bool))).length :=
    List.length_pos.mpr (List.ne_nil_of_mem h0fil)
  rw [hrep]
  refine ⟨htake, htake.imp ne_of_lt, ?_, ?_, ?_⟩
  · rw [List.length_take]; omega
  · rw [List.length_take]; omega
  · intro t ht
    have ht2 := List.mem_of_mem_take ht
    have := List.of_mem_filter ht2
    simpa using this

/-- Witness for C1 at the concrete duration 32.4 seconds. -/
theorem sampler_default_spec_witness :
    0 < (162/5 : ℚ) ∧
    ((sampleTimestamps (162/5)).Pairwise (· < ·) ∧
     (sampleTimestamps (162/5)).Nodup ∧
     1 ≤ (sampleTimestamps (162/5)).length ∧
     (sampleTimestamps (162/5)).length ≤ 5 ∧
     ∀ t ∈ sampleTimestamps (162/5), (t : ℚ) < 162/5) :=
  ⟨by norm_num, sampler_default_spec (162/5) (by norm_num)⟩

/-- The concrete example from the specification: a duration of 32.4 seconds
yields the five sample points 0, 2, 8, 16, 29. -/
theorem sampler_example_32_4 : sampleTimestamps (162/5) = [0, 2, 8, 16, 29] := by
  norm_num [sampleTimestamps, jsSetDedup, Int.floor_eq_iff, List.filter]

/-- The second example from the specification: a duration of 1.5 seconds
yields the sample points 0 and 1. -/
theorem sampler_example_1_5 : sampleTimestamps (3/2) = [0, 1] := by
  norm_num [sampleTimestamps, jsSetDedup, Int.floor_eq_iff, List.filter]

/-! ## Manual timestamp override (part_002 lines 658-668)

In the source, the filter `t < duration` and the `slice(0, 5)` truncation sit
inside the `if (!timestamps)` block that recomputes the default sample points,
so they never run when a manual override was supplied. -/

/-- C3 counterexample: with the manual override `[100]` and duration 30, the
list actually used for frame extraction is `[100]` itself, not the override
with the strictly-below-duration filter applied, which would be empty.  This
refutes the claim that the override list is used after the filtering. -/
theorem override_not_filtered_cex :
    ¬ (selectTimestamps (some [100]) 30 =
        ([100] : List Int).filter (fun t : Int => ((t : ℚ) < 30 : Bool))) := by
  norm_num [selectTimestamps, List.filter]

/-- C3 amended: given a manual timestamp override, the Sampler default
algorithm is bypassed entirely and the override list is used fully verbatim,
with no filtering, deduplication or truncation applied to it at all. -/
theorem override_used_verbatim (ts : List Int) (d : ℚ) :
    selectTimestamps (some ts) d = ts := rfl

/-- C6 counterexample: the Fetcher variant at part_002 lines 921-937 reports
success for a 5-byte file downloaded with HTTP status 200 instead of raising a
download error, refuting the claim for that cited code. -/
theorem small_download_accepted_cex :
    downloadDirectLegacy ⟨200, true, 5⟩ = .success := rfl

/-- C6 amended: the consolidated Fetcher (part_002 lines 513-547) raises a
download error for every streamed file smaller than 1000 bytes even when the
HTTP status was 200, while the older variant at lines 921-937 performs no size
validation and reports such a download as success. -/
theorem small_download_rejected (r : HttpDownload) (hs : r.status = 200)
    (hok : r.streamOk = true) (hsz : r.fileSize < 1000) :
    downloadDirect r = .tooSmall r.fileSize ∧
    downloadDirectLegacy r = .success := by
  constructor
  · simp [downloadDirect, hs, hok, hsz]
  · simp [downloadDirectLegacy, hs, hok]

/-- Witness for C6 amended at a concrete 5-byte, status-200 download. -/
theorem small_download_rejected_witness :
    (⟨200, true, 5⟩ : HttpDownload).status = 200 ∧
    (⟨200, true, 5⟩ : HttpDownload).streamOk = true ∧
    (⟨200, true, 5⟩ : HttpDownload).fileSize < 1000 ∧
    (downloadDirect ⟨200, true, 5⟩ = .tooSmall 5 ∧
      downloadDirectLegacy ⟨200, true, 5⟩ = .success) :=
  ⟨rfl, rfl, by decide, small_download_rejected ⟨200, true, 5⟩ rfl rfl (by decide)⟩

/-- C8 counterexample: on a success response offering both the standard play
URL and the HD variant, the resolver variant at part_002 lines 944-972 selects
the HD variant, not the standard play URL, refuting the claim for that cited
code. -/
theorem hd_selected_cex :
    resolveTikTokUrlLegacy ⟨some 0, some ⟨some "p", some "h", some "w"⟩⟩ =
      some "h" ∧ ("h" : String) ≠ "p" := by
  constructor
  · rfl
  · decide

/-- C8 amended: the consolidated resolver (part_002 lines 555-584) selects the
standard play URL whenever it is present and nonempty, and selects the
watermarked variant only when neither the play URL nor the HD variant is
usable; the older variant at lines 944-972 instead prefers the HD variant. -/
theorem play_preferred_over_hd (body : TikwmBody) (d : TikwmData)
    (hcode : body.code = some 0) (hdata : body.data = some d) :
    (∀ p : String, d.play = some p → p ≠ "" → resolveTikTokUrl body = some p) ∧
    (jsTruthy d.play = false → jsTruthy d.hdplay = false →
      resolveTikTokUrl body =
        if jsTruthy d.wmplay then d.wmplay else none) ∧
    (∀ h : String, d.hdplay = some h → h ≠ "" →
      resolveTikTokUrlLegacy body = some h) := by
  refine ⟨?_, ?_, ?_⟩
  · intro p hp hne
    simp [resolveTikTokUrl, hcode, hdata, jsOr, hp, jsTruthy, hne]
  · intro h1 h2
    simp [resolveTikTokUrl, hcode, hdata, jsOr, h1, h2]
  · intro h hh hne
    simp [resolveTikTokUrlLegacy, hcode, hdata, jsOr, hh, jsTruthy, hne]

/-- Witness for C8 amended at a concrete response offering all three URLs. -/
theorem play_preferred_over_hd_witness :
    (⟨some 0, some ⟨some "p", some "h", some "w"⟩⟩ : TikwmBody).code = some 0 ∧
    resolveTikTokUrl ⟨some 0, some ⟨some "p", some "h", some "w"⟩⟩ = some "p" ∧
    resolveTikTokUrlLegacy ⟨some 0, some ⟨some "p", some "h", some "w"⟩⟩ =
      some "h" := by
  refine ⟨rfl, ?_, ?_⟩
  · exact (play_preferred_over_hd _ ⟨some "p", some "h", some "w"⟩ rfl rfl).1
      "p" rfl (by decide)
  · exact (play_preferred_over_hd _ ⟨some "p", some "h", some "w"⟩ rfl rfl).2.2
      "h" rfl (by decide)

/-- C7 counterexample: when the tikwm API fails and the yt-dlp binary is
unavailable, the invocation fails hard with the yt-dlp-unavailable error; the
strategy is not skipped.  This refutes the claim that binary unavailability is
not treated as a hard failure of the invocation. -/
theorem ytdlp_missing_hard_failure_cex :
    (tiktokFetch ⟨false, false, false, true⟩).1 = .ytdlpUnavailable := rfl

/-- C7 amended: whenever the hosted resolution API strategy fails (resolution
or the subsequent direct download), the pipeline attempts the yt-dlp
subprocess downloader before any error propagates; but when the yt-dlp binary
is unavailable that attempt itself throws, and the invocation fails with the
yt-dlp-unavailable error rather than skipping the strategy. -/
theorem ytdlp_attempted_on_api_failure (env : TikTokFetchEnv)
    (h : env.tikwmResolves = false ∨ env.directDownloadOk = false) :
    FetchStrategy.ytdlp ∈ (tiktokFetch env).2 ∧
    (tiktokFetch env).1 = downloadWithYtDlp env ∧
    (env.ytdlpAvailable = false → (tiktokFetch env).1 = .ytdlpUnavailable) := by
  have hcond : (env.tikwmResolves && env.directDownloadOk) = false := by
    rcases h with h | h <;> simp [h]
  refine ⟨?_, ?_, ?_⟩
  · simp [tiktokFetch, hcond]
  · simp [tiktokFetch, hcond]
  · intro hna
    simp [tiktokFetch, hcond, downloadWithYtDlp, hna]

/-- Witness for C7 amended: tikwm fails to resolve and no yt-dlp binary is
present. -/
theorem ytdlp_attempted_on_api_failure_witness :
    ((⟨false, false, false, true⟩ : TikTokFetchEnv).tikwmResolves = false ∨
      (⟨false, false, false, true⟩ : TikTokFetchEnv).directDownloadOk = false) ∧
    (FetchStrategy.ytdlp ∈ (tiktokFetch ⟨false, false, false, true⟩).2 ∧
      (tiktokFetch ⟨false, false, false, true⟩).1 =
        downloadWithYtDlp ⟨false, false, false, true⟩ ∧
      ((⟨false, false, false, true⟩ : TikTokFetchEnv).ytdlpAvailable = false →
        (tiktokFetch ⟨false, false, false, true⟩).1 = .ytdlpUnavailable)) :=
  ⟨Or.inl rfl, ytdlp_attempted_on_api_failure ⟨false, false, false, true⟩ (Or.inl rfl)⟩

theorem digitChar_val : ∀ d, d < 10 → ((Nat.digitChar d).toNat - 48) = d := by
  decide

theorem digitChar_isDigit : ∀ d, d < 10 → (Nat.digitChar d).isDigit = true := by
  decide

theorem toDigitsCore_succ (f n : Nat) (acc : List Char) :
    Nat.toDigitsCore 10 (f + 1) n acc =
      if n / 10 = 0 then Nat.digitChar (n % 10) :: acc
      else Nat.toDigitsCore 10 f (n / 10) (Nat.digitChar (n % 10) :: acc) := by
  simp [Nat.toDigitsCore]

theorem toDigitsCore_val :
    ∀ (f n : Nat) (acc : List Char), n < 10 ^ f →
      digitsVal (Nat.toDigitsCore 10 f n acc) =
        n * 10 ^ acc.length + digitsVal acc := by
  intro f
  induction f with
  | zero =>
    intro n acc h
    have hn : n = 0 := by simpa using h
    simp [Nat.toDigitsCore, hn]
  | succ f ih =>
    intro n acc h
    rw [toDigitsCore_succ]
    by_cases h0 : n / 10 = 0
    · rw [if_pos h0, digitsVal, digitChar_val _ (Nat.mod_lt n (by norm_num))]
      have hn : n % 10 = n := Nat.mod_eq_of_lt (by omega)
      rw [hn]
    · rw [if_neg h0]
      have hp : (10 : Nat) ^ (f + 1) = 10 ^ f * 10 := pow_succ 10 f
      have hlt : n / 10 < 10 ^ f := by omega
      rw [ih (n / 10) (Nat.digitChar (n % 10) :: acc) hlt, digitsVal,
        digitChar_val _ (Nat.mod_lt n (by norm_num)), List.length_cons]
      have h3 : (10 : Nat) ^ (acc.length + 1) = 10 ^ acc.length * 10 :=
        pow_succ 10 acc.length
      rw [h3]
      set q := n / 10 with hq
      set r := n % 10 with hr
      have h2 : n = 10 * q + r := by omega
      rw [h2]
      ring

theorem toDigits_val (n : Nat) : digitsVal (Nat.toDigits 10 n) = n := by
  have h : n < 10 ^ (n + 1) :=
    lt_of_lt_of_le (Nat.lt_pow_self (by norm_num) n)
      (Nat.pow_le_pow_right (by norm_num) (Nat.le_succ n))
  simpa [digitsVal] using toDigitsCore_val (n + 1) n [] h

theorem natToString_injective (m n : Nat) (h : toString m = toString n) :
    m = n := by
  have hrepr : Nat.repr m = Nat.repr n := h
  have hdata : Nat.toDigits 10 m = Nat.toDigits 10 n := congrArg String.data hrepr
  have hm := toDigits_val m
  rw [hdata, toDigits_val n] at hm
  exact hm.symm

theorem toDigitsCore_chars :
    ∀ (f n : Nat) (acc : List Char), (∀ c ∈ acc, c.isDigit = true) →
      ∀ c ∈ Nat.toDigitsCore 10 f n acc, c.isDigit = true := by
  intro f
  induction f with
  | zero =>
    intro n acc hacc
    simpa [Nat.toDigitsCore] using hacc
  | succ f ih =>
    intro n acc hacc
    rw [toDigitsCore_succ]
    by_cases h0 : n / 10 = 0
    · rw [if_pos h0]
      intro c hc
      rcases List.mem_cons.mp hc with rfl | hc
      · exact digitChar_isDigit _ (Nat.mod_lt n (by norm_num))
      · exact hacc c hc
    · rw [if_neg h0]
      refine ih (n / 10) _ fun c hc => ?_
      rcases List.mem_cons.mp hc with rfl | hc
      · exact digitChar_isDigit _ (Nat.mod_lt n (by norm_num))
      · exact hacc c hc

theorem natToString_chars (n : Nat) :
    ∀ c ∈ (toString n : String).data, c.isDigit = true := by
  have e : (toString n : String).data = Nat.toDigits 10 n := rfl
  rw [e]
  exact toDigitsCore_chars (n + 1) n [] (by simp)

theorem underscore_not_mem_natToString (n : Nat) :
    '_' ∉ (toString n : String).data := by
  intro h
  have := natToString_chars n '_' h
  simp [Char.isDigit] at this

theorem append_underscore_inj :
    ∀ (xs1 xs2 ys1 ys2 : List Char), '_' ∉ xs1 → '_' ∉ xs2 →
      xs1 ++ '_' :: ys1 = xs2 ++ '_' :: ys2 → xs1 = xs2 ∧ ys1 = ys2 := by
  intro xs1
  induction xs1 with
  | nil =>
    intro xs2 ys1 ys2 h1 h2 h
    cases xs2 with
    | nil => simpa using h
    | cons b bs =>
      simp only [List.nil_append, List.cons_append, List.cons.injEq] at h
      exact absurd (h.1 ▸ List.mem_cons_self b bs) h2
  | cons a as ih =>
    intro xs2 ys1 ys2 h1 h2 h
    cases xs2 with
    | nil =>
      simp only [List.nil_append, List.cons_append, List.cons.injEq] at h
      exact absurd (h.1 ▸ List.mem_cons_self a as) h1
    | cons b bs =>
      simp only [List.cons_append, List.cons.injEq] at h
      obtain ⟨rfl, h2eq⟩ := h
      have hrec := ih bs ys1 ys2 (fun hm => h1 (List.mem_cons_of_mem _ hm))
        (fun hm => h2 (List.mem_cons_of_mem _ hm)) h2eq
      exact ⟨by rw [hrec.1], hrec.2⟩

theorem videoPathOf_head (v : Nat) : (videoPathOf v).data.head? = some 's' := by
  have e : ("socially_video_" : String).data = 's' :: "ocially_video_".data := rfl
  simp [videoPathOf, String.data_append, e]

theorem framePathOf_head (v : Nat) (t : Int) :
    (framePathOf v t).data.head? = some 'f' := by
  have e : ("frame_" : String).data = 'f' :: "rame_".data := rfl
  simp [framePathOf, String.data_append, e]

theorem audioPathOf_head (v : Nat) : (audioPathOf v).data.head? = some 'a' := by
  have e : ("audio_" : String).data = 'a' :: "udio_".data := rfl
  simp [audioPathOf, String.data_append, e]

theorem videoPathOf_injective (v1 v2 : Nat) (h : videoPathOf v1 = videoPathOf v2) :
    v1 = v2 := by
  have hd := congrArg String.data h
  simp only [videoPathOf, String.data_append, List.append_assoc] at hd
  have h1 := List.append_cancel_left hd
  have h2 := List.append_cancel_right h1
  exact natToString_injective v1 v2 (String.ext h2)

theorem audioPathOf_injective (v1 v2 : Nat) (h : audioPathOf v1 = audioPathOf v2) :
    v1 = v2 := by
  have hd := congrArg String.data h
  simp only [audioPathOf, String.data_append, List.append_assoc] at hd
  have h1 := List.append_cancel_left hd
  have h2 := List.append_cancel_right h1
  exact natToString_injective v1 v2 (String.ext h2)

theorem framePathOf_data (v : Nat) (t : Int) :
    (framePathOf v t).data =
      "frame_".data ++
        ((toString v).data ++ '_' :: ((toString t).data ++ ".jpg".data)) := by
  have e : ("_" : String).data = ['_'] := rfl
  simp [framePathOf, String.data_append, List.append_assoc, e]

theorem framePathOf_id_injective (v1 v2 : Nat) (t1 t2 : Int)
    (h : framePathOf v1 t1 = framePathOf v2 t2) : v1 = v2 := by
  have hd := congrArg String.data h
  rw [framePathOf_data, framePathOf_data] at hd
  have h1 := List.append_cancel_left hd
  have h2 := append_underscore_inj _ _ _ _ (underscore_not_mem_natToString v1)
    (underscore_not_mem_natToString v2) h1
  exact natToString_injective v1 v2 (String.ext h2.1)

/-- C9 counterexample: in the variant at part_002 lines 380-474, two distinct
invocations (ids 1 and 2) produce the same per-timestamp frame file path for
timestamp 0, because that frame file name embeds no invocation identifier at
all.  This refutes the claim that every transient file name embeds an
identifier unique to its invocation so that no two invocations ever produce
the same file path. -/
theorem frame_path_collision_cex :
    legacyFramePathOf 1 0 = legacyFramePathOf 2 0 ∧ (1 : Nat) ≠ 2 :=
  ⟨rfl, by decide⟩

/-- C9 amended: in the consolidated `extractFrames` (part_002 lines 611-749)
every transient file name, for the video, each frame and the audio, embeds the
invocation videoId, and two invocations with distinct videoIds never produce
the same file path; but in the variant at part_002 lines 380-474 the frame
file names embed no invocation identifier, so distinct invocations sharing a
timestamp produce the same frame path (and the videoId taken from the clock
in milliseconds is itself not guaranteed unique across concurrent
invocations). -/
theorem distinct_ids_distinct_paths (v1 v2 : Nat) (t1 t2 : Int)
    (hne : v1 ≠ v2) :
    videoPathOf v1 ≠ videoPathOf v2 ∧
    audioPathOf v1 ≠ audioPathOf v2 ∧
    framePathOf v1 t1 ≠ framePathOf v2 t2 ∧
    videoPathOf v1 ≠ audioPathOf v2 ∧
    videoPathOf v1 ≠ framePathOf v2 t2 ∧
    audioPathOf v1 ≠ framePathOf v2 t2 := by
  refine ⟨fun h => hne (videoPathOf_injective _ _ h),
    fun h => hne (audioPathOf_injective _ _ h),
    fun h => hne (framePathOf_id_injective _ _ _ _ h), ?_, ?_, ?_⟩
  · intro h
    have := congrArg (fun s : String => s.data.head?) h
    simp only [videoPathOf_head, audioPathOf_head] at this
    exact absurd this (by decide)
  · intro h
    have := congrArg (fun s : String => s.data.head?) h
    simp only [videoPathOf_head, framePathOf_head] at this
    exact absurd this (by decide)
  · intro h
    have := congrArg (fun s : String => s.data.head?) h
    simp only [audioPathOf_head, framePathOf_head] at this
    exact absurd this (by decide)

/-- Witness for C9 amended at the concrete invocation ids 1 and 2 and
timestamps 0 and 3. -/
theorem distinct_ids_distinct_paths_witness :
    (1 : Nat) ≠ 2 ∧
    (videoPathOf 1 ≠ videoPathOf 2 ∧
     audioPathOf 1 ≠ audioPathOf 2 ∧
     framePathOf 1 0 ≠ framePathOf 2 3 ∧
     videoPathOf 1 ≠ audioPathOf 2 ∧
     videoPathOf 1 ≠ framePathOf 2 3 ∧
     audioPathOf 1 ≠ framePathOf 2 3) :=
  ⟨by decide, distinct_ids_distinct_paths 1 2 0 3 (by decide)⟩

theorem isEmpty_map {α β : Type} (f : α → β) (l : List α) :
    (l.map f).isEmpty = l.isEmpty := by
  cases l <;> simp

theorem foldl_frameStep (videoId : Nat) (env : PipelineEnv) :
    ∀ (ts : List Int) (acc : List Frame × List String),
      ts.foldl (frameStep videoId env) acc =
        (acc.1 ++ (successfulTs env ts).map
            (fun t => ⟨t, env.frameData t, "image/jpeg"⟩),
         acc.2 ++ (leakedTs env ts).map (framePathOf videoId))
  | [], acc => by simp [successfulTs, leakedTs]
  | t :: ts, acc => by
    rw [List.foldl_cons, foldl_frameStep videoId env ts]
    cases h1 : (env.frameOutcome t).captureOk <;>
      cases h2 : (env.frameOutcome t).fileCreated <;>
      simp [frameStep, successfulTs, leakedTs, h1, h2, List.filter_cons]

theorem framePathOf_ne_videoPathOf (v w : Nat) (t : Int) :
    framePathOf v t ≠ videoPathOf w := by
  intro h
  have := congrArg (fun s : String => s.data.head?) h
  simp only [framePathOf_head, videoPathOf_head] at this
  exact absurd this (by decide)

theorem audioPathOf_ne_videoPathOf (v w : Nat) :
    audioPathOf v ≠ videoPathOf w := by
  intro h
  have := congrArg (fun s : String => s.data.head?) h
  simp only [audioPathOf_head, videoPathOf_head] at this
  exact absurd this (by decide)

theorem framePathOf_ne_audioPathOf (v w : Nat) (t : Int) :
    framePathOf v t ≠ audioPathOf w := by
  intro h
  have := congrArg (fun s : String => s.data.head?) h
  simp only [framePathOf_head, audioPathOf_head] at this
  exact absurd this (by decide)

/-- Final transient-directory contents and result of the pipeline, expressed
through the successful and leaked timestamp lists. -/
theorem runPipeline_eq (videoId : Nat) (duration : ℚ)
    (manual : Option (List Int)) (env : PipelineEnv) :
    runPipeline videoId duration manual env =
      if (successfulTs env (selectTimestamps manual duration)).isEmpty then
        (.error .noFrames,
          (leakedTs env (selectTimestamps manual duration)).map
            (framePathOf videoId))
      else if env.audioOk then
        (.ok ⟨(successfulTs env (selectTimestamps manual duration)).map
              (fun t => ⟨t, env.frameData t, "image/jpeg"⟩),
            audioPathOf videoId⟩,
          (leakedTs env (selectTimestamps manual duration)).map
              (framePathOf videoId) ++ [audioPathOf videoId])
      else
        (.error .audioFailed,
          (leakedTs env (selectTimestamps manual duration)).map
              (framePathOf videoId) ++
            if env.audioRemnant then [audioPathOf videoId] else []) := by
  unfold runPipeline
  rw [foldl_frameStep]
  simp only [List.nil_append, isEmpty_map, List.cons_append,
    List.erase_cons_head]

/-- C4: per-timestamp frame failures are tolerated exactly up to total loss.
In a run whose remaining stages are nominal, if at least one timestamp yields
a frame the pipeline returns, with no error, a result containing exactly the
successful frames in order; and if zero frames were produced it raises the
no-frames error with the transient video file already deleted. -/
theorem frame_failure_tolerance (videoId : Nat) (duration : ℚ)
    (manual : Option (List Int)) (env : PipelineEnv) :
    (successfulTs env (selectTimestamps manual duration) ≠ [] →
      env.audioOk = true →
      (runPipeline videoId duration manual env).1 =
        .ok ⟨(successfulTs env (selectTimestamps manual duration)).map
              (fun t => ⟨t, env.frameData t, "image/jpeg"⟩),
            audioPathOf videoId⟩) ∧
    (successfulTs env (selectTimestamps manual duration) = [] →
      (runPipeline videoId duration manual env).1 = .error .noFrames ∧
      videoPathOf videoId ∉ (runPipeline videoId duration manual env).2) := by
  rw [runPipeline_eq]
  constructor
  · intro hne haud
    rw [if_neg (by simpa [List.isEmpty_iff] using hne), if_pos haud]
  · intro hempty
    rw [if_pos (by simp [hempty])]
    refine ⟨rfl, ?_⟩
    simp only [List.mem_map, not_exists, not_and]
    intro t _ h
    exact framePathOf_ne_videoPathOf videoId videoId t h

/-- Witness for C4: with timestamps 0 to 4, an environment in which captures
at 1 and 3 fail cleanly yields a three-frame success, and an environment in
which every capture fails yields the no-frames error with the video file
deleted. -/
theorem frame_failure_tolerance_witness :
    (successfulTs mixedEnv (selectTimestamps (some [0, 1, 2, 3, 4]) 10) ≠ [] ∧
     mixedEnv.audioOk = true ∧
     (runPipeline 9 10 (some [0, 1, 2, 3, 4]) mixedEnv).1 =
       .ok ⟨[⟨0, "d", "image/jpeg"⟩, ⟨2, "d", "image/jpeg"⟩,
             ⟨4, "d", "image/jpeg"⟩], audioPathOf 9⟩) ∧
    (successfulTs allFailEnv (selectTimestamps (some [0, 1, 2, 3, 4]) 10) = [] ∧
     (runPipeline 9 10 (some [0, 1, 2, 3, 4]) allFailEnv).1 = .error .noFrames ∧
     videoPathOf 9 ∉ (runPipeline 9 10 (some [0, 1, 2, 3, 4]) allFailEnv).2) := by
  constructor
  · refine ⟨by decide, rfl, ?_⟩
    have h := (frame_failure_tolerance 9 10 (some [0, 1, 2, 3, 4]) mixedEnv).1
      (by decide) rfl
    exact h
  · refine ⟨by decide, ?_⟩
    exact (frame_failure_tolerance 9 10 (some [0, 1, 2, 3, 4]) allFailEnv).2
      (by decide)

/-- C5: audio extraction failure is fatal to the whole invocation with no
retry, even when frames were already successfully extracted: the invocation
raises the audio error, no success value carrying the extracted frames is
returned to the caller, and the transient video file is deleted before the
error propagates. -/
theorem audio_failure_fatal (videoId : Nat) (duration : ℚ)
    (manual : Option (List Int)) (env : PipelineEnv)
    (hsucc : successfulTs env (selectTimestamps manual duration) ≠ [])
    (haud : env.audioOk = false) :
    (runPipeline videoId duration manual env).1 = .error .audioFailed ∧
    (∀ out, (runPipeline videoId duration manual env).1 ≠ .ok out) ∧
    videoPathOf videoId ∉ (runPipeline videoId duration manual env).2 := by
  rw [runPipeline_eq]
  rw [if_neg (by simpa [List.isEmpty_iff] using hsucc), if_neg (by simp [haud])]
  refine ⟨rfl, by simp, ?_⟩
  simp only [List.mem_append, List.mem_map, not_or, not_exists, not_and]
  constructor
  · intro t _ h
    exact framePathOf_ne_videoPathOf videoId videoId t h
  · intro h
    rcases hrem : env.audioRemnant with _ | _ <;> simp [hrem] at h
    exact audioPathOf_ne_videoPathOf videoId videoId h.symm

/-- Witness for C5: one successful frame at timestamp 0, then the audio
transcode fails. -/
theorem audio_failure_fatal_witness :
    successfulTs audioFailEnv (selectTimestamps (some [0]) 10) ≠ [] ∧
    audioFailEnv.audioOk = false ∧
    ((runPipeline 4 10 (some [0]) audioFailEnv).1 = .error .audioFailed ∧
     (∀ out, (runPipeline 4 10 (some [0]) audioFailEnv).1 ≠ .ok out) ∧
     videoPathOf 4 ∉ (runPipeline 4 10 (some [0]) audioFailEnv).2) :=
  ⟨by decide, rfl,
    audio_failure_fatal 4 10 (some [0]) audioFailEnv (by decide) rfl⟩

/-- C10: the failure-path cleanup deletes only the video file and never the
audio output path: when the invocation fails after audio transcoding has
begun and a partial audio file exists, that file remains in the transient
directory while the video file is deleted. -/
theorem audio_remnant_persists (videoId : Nat) (duration : ℚ)
    (manual : Option (List Int)) (env : PipelineEnv)
    (hsucc : successfulTs env (selectTimestamps manual duration) ≠ [])
    (haud : env.audioOk = false) (hrem : env.audioRemnant = true) :
    (runPipeline videoId duration manual env).1 = .error .audioFailed ∧
    audioPathOf videoId ∈ (runPipeline videoId duration manual env).2 ∧
    videoPathOf videoId ∉ (runPipeline videoId duration manual env).2 := by
  rw [runPipeline_eq]
  rw [if_neg (by simpa [List.isEmpty_iff] using hsucc), if_neg (by simp [haud])]
  refine ⟨rfl, by simp [hrem], ?_⟩
  simp only [List.mem_append, List.mem_map, not_or, not_exists, not_and]
  constructor
  · intro t _ h
    exact framePathOf_ne_videoPathOf videoId videoId t h
  · intro h
    rw [hrem] at h
    simp at h
    exact audioPathOf_ne_videoPathOf videoId videoId h.symm

/-- Witness for C10: the audio transcode fails leaving a partial file after a
successful frame at timestamp 2. -/
theorem audio_remnant_persists_witness :
    successfulTs audioFailEnv (selectTimestamps (some [2]) 10) ≠ [] ∧
    audioFailEnv.audioOk = false ∧
    audioFailEnv.audioRemnant = true ∧
    ((runPipeline 6 10 (some [2]) audioFailEnv).1 = .error .audioFailed ∧
     audioPathOf 6 ∈ (runPipeline 6 10 (some [2]) audioFailEnv).2 ∧
     videoPathOf 6 ∉ (runPipeline 6 10 (some [2]) audioFailEnv).2) :=
  ⟨by decide, rfl, rfl,
    audio_remnant_persists 6 10 (some [2]) audioFailEnv (by decide) rfl rfl⟩

/-- C2 counterexample: a run over timestamps 3 and 4 in which the capture at
3 fails leaving a partial frame file and the capture at 4 succeeds ends as a
SUCCESSFUL invocation whose transient directory still contains the frame file
of timestamp 3.  This refutes the claim that on every exit path no
per-timestamp frame file remains and that after a successful run only the
audio file remains: the loop deletes a frame file only after a successful
capture, and no exit path deletes a partial frame file. -/
theorem frame_file_left_behind_cex :
    (runPipeline 7 10 (some [3, 4]) leakEnv).1 =
      .ok ⟨[⟨4, "imgdata", "image/jpeg"⟩], audioPathOf 7⟩ ∧
    framePathOf 7 3 ∈ (runPipeline 7 10 (some [3, 4]) leakEnv).2 := by
  constructor
  · rfl
  · decide

/-- C2 amended: frame files are deleted by the frame-extraction loop only
after a successful capture, so the guarantee holds for every environment in
which a failed capture leaves no partial file behind: on every exit path,
success or failure, no per-timestamp frame file and no video file remains in
the transient directory, and after a successful run only the extracted audio
file remains. -/
theorem cleanup_invariant (videoId : Nat) (duration : ℚ)
    (manual : Option (List Int)) (env : PipelineEnv)
    (hclean : ∀ t, (env.frameOutcome t).captureOk = false →
      (env.frameOutcome t).fileCreated = false) :
    videoPathOf videoId ∉ (runPipeline videoId duration manual env).2 ∧
    (∀ t, framePathOf videoId t ∉ (runPipeline videoId duration manual env).2) ∧
    (∀ out, (runPipeline videoId duration manual env).1 = .ok out →
      (runPipeline videoId duration manual env).2 = [audioPathOf videoId]) := by
  have hleak : leakedTs env (selectTimestamps manual duration) = [] := by
    rw [leakedTs, List.filter_eq_nil_iff]
    intro t _
    cases hc : (env.frameOutcome t).captureOk
    · simp [hclean t hc]
    · simp [hc]
  rw [runPipeline_eq, hleak]
  by_cases hempty : (successfulTs env (selectTimestamps manual duration)).isEmpty
  · rw [if_pos hempty]
    exact ⟨by simp, fun t => by simp, fun out h => by simp at h⟩
  · rw [if_neg hempty]
    cases haud : env.audioOk
    · rw [if_neg (by simp)]
      refine ⟨?_, ?_, fun out h => by simp at h⟩
      · cases hrem : env.audioRemnant <;>
          simp [Ne.symm (audioPathOf_ne_videoPathOf videoId videoId)]
      · intro t
        cases hrem : env.audioRemnant <;>
          simp [framePathOf_ne_audioPathOf videoId videoId t]
    · rw [if_pos rfl]
      refine ⟨?_, ?_, fun out h => by simp⟩
      · simp [Ne.symm (audioPathOf_ne_videoPathOf videoId videoId)]
      · intro t
        simp [framePathOf_ne_audioPathOf videoId videoId t]

/-- Witness for C2 amended: every capture succeeds over timestamps 0 and 2,
so after the successful run only the audio file remains, and neither the
video file nor any frame file is left on disk. -/
theorem cleanup_invariant_witness :
    (∀ t, (cleanEnv.frameOutcome t).captureOk = false →
      (cleanEnv.frameOutcome t).fileCreated = false) ∧
    (videoPathOf 5 ∉ (runPipeline 5 10 (some [0, 2]) cleanEnv).2 ∧
     (∀ t, framePathOf 5 t ∉ (runPipeline 5 10 (some [0, 2]) cleanEnv).2) ∧
     (∀ out, (runPipeline 5 10 (some [0, 2]) cleanEnv).1 = .ok out →
       (runPipeline 5 10 (some [0, 2]) cleanEnv).2 = [audioPathOf 5])) :=
  ⟨fun t h => by simp [cleanEnv] at h,
    cleanup_invariant 5 10 (some [0, 2]) cleanEnv
      (fun t h => by simp [cleanEnv] at h)⟩

end VideoPipeline
